import Mathlib

/-!
Verification of the CNC path-visualizer core (SculptAnimate).

The definitions below are a shallow embedding of the repository's core:
* the G-code interpreter `parseGCode` and the path builder `createToolPath`
  from the `useGCodeParser` hook;
* the playback controller (`animate`, `handleProgressChange`) and the
  partial-path renderer (`updatePathAnimation`) from the `Scene` component;
* the resource-slot loading logic shared by `useGCodeParser` and
  `useThreeSetup`.

JS numbers are modelled as rationals (all inputs considered are exact
decimals), strings as `List Char` where character-level processing matters.
-/

namespace SculptAnimate

/-- A 3D point with rational coordinates, modelling `THREE.Vector3` as used
by the tool-path builder. -/
structure Vec3 where
  x : ℚ
  y : ℚ
  z : ℚ
deriving DecidableEq, Repr

/-- One parsed G-code instruction (`interface GCodeCommand`): the literal
G token of the line plus optional absolute target coordinates. -/
structure GCodeCommand where
  type : String
  x : Option ℚ := none
  y : Option ℚ := none
  z : Option ℚ := none
deriving DecidableEq, Repr

/-! ### JS string primitives used by the interpreter -/

/-- JS `String.prototype.split` with a one-character separator: splits at
every occurrence and keeps empty pieces. -/
def splitOnChar (sep : Char) : List Char → List (List Char)
  | [] => [[]]
  | c :: cs =>
    match splitOnChar sep cs with
    | [] => [[]]
    | r :: rs => if c = sep then [] :: r :: rs else (c :: r) :: rs

/-- JS `String.prototype.trim`: strip whitespace from both ends. -/
def jsTrim (l : List Char) : List Char :=
  ((l.dropWhile Char.isWhitespace).reverse.dropWhile Char.isWhitespace).reverse

/-- Value of a list of decimal digit characters. -/
def natOfDigits (l : List Char) : Nat :=
  l.foldl (fun n c => 10 * n + (c.toNat - 48)) 0

/-- Model of JS `Number.parseFloat` restricted to plain decimal literals:
optional sign, integer digits, optional fractional digits; trailing
characters are ignored; `none` models `NaN` (no digits readable).
The value `±(i + f / 10^k)` is assembled with `mkRat` so that it reduces
definitionally. Exponent notation and `Infinity` are not modelled; none of
the inputs considered here use them. -/
def parseFloatQ (l : List Char) : Option ℚ :=
  let signAndRest : Bool × List Char :=
    match l with
    | '-' :: rest => (true, rest)
    | '+' :: rest => (false, rest)
    | _ => (false, l)
  let l1 := signAndRest.2
  let intPart := l1.takeWhile Char.isDigit
  let l2 := l1.dropWhile Char.isDigit
  let fracPart :=
    match l2 with
    | '.' :: rest => rest.takeWhile Char.isDigit
    | _ => []
  if intPart = [] ∧ fracPart = [] then none
  else
    let k := fracPart.length
    let mag : ℚ := mkRat (natOfDigits intPart * 10 ^ k + natOfDigits fracPart) (10 ^ k)
    some (if signAndRest.1 then -mag else mag)

/-! ### The interpreter (`parseGCode`) -/

/-- First character of a token, uppercased (`part.charAt(0).toUpperCase()`);
`none` for the empty token, which in JS yields the empty string and matches
no code letter. -/
def codeLetter : List Char → Option Char
  | [] => none
  | c :: _ => some c.toUpper

/-- Body of the inner token loop of `parseGCode`: a `G` token overwrites
`type` with its literal text; an `X`/`Y`/`Z` token whose remainder parses
as a number overwrites that coordinate; everything else is ignored. -/
def applyToken (command : GCodeCommand) (part : List Char) : GCodeCommand :=
  let value := parseFloatQ part.tail
  match codeLetter part with
  | none => command
  | some code =>
    if code = 'G' then { command with type := ⟨part⟩ }
    else
      match value with
      | none => command
      | some v =>
        if code = 'X' then { command with x := some v }
        else if code = 'Y' then { command with y := some v }
        else if code = 'Z' then { command with z := some v }
        else command

/-- Folding the token loop over all whitespace-separated parts of a line. -/
def parseLine (parts : List (List Char)) : GCodeCommand :=
  parts.foldl applyToken { type := "" }

/-- Processing of one input line by `parseGCode`: skip blank and `;` comment
lines, tokenize on `' '`, and keep the command only when a `G` token set a
non-empty `type` and at least one coordinate was set. -/
def processLine (line : List Char) : Option GCodeCommand :=
  let trimmedLine := jsTrim line
  if trimmedLine = [] then none
  else if trimmedLine.head? = some ';' then none
  else
    let command := parseLine (splitOnChar ' ' trimmedLine)
    if command.type ≠ "" ∧ (command.x.isSome ∨ command.y.isSome ∨ command.z.isSome) then
      some command
    else none

/-- Function `parseGCode(content)`: split on newlines and process each line. -/
def parseGCode (content : String) : List GCodeCommand :=
  (splitOnChar '\n' content.data).filterMap processLine

/-! ### The path builder (`createToolPath`) -/

/-- A command contributes geometry iff its literal `type` starts with
`"G0"` or `"G1"`. -/
def isMotion (c : GCodeCommand) : Bool :=
  c.type.data.take 2 = ['G', '0'] || c.type.data.take 2 = ['G', '1']

/-- Computation of `newPosition`: clone of the current position with every axis present on
the command overwritten (modal carry-over for absent axes). -/
def commandTarget (currentPosition : Vec3) (c : GCodeCommand) : Vec3 :=
  { x := c.x.getD currentPosition.x
    y := c.y.getD currentPosition.y
    z := c.z.getD currentPosition.z }

/-- The command loop of `createToolPath`: each motion command appends the
position before and after its move; other commands are skipped. -/
def rawToolPathPoints (currentPosition : Vec3) : List GCodeCommand → List Vec3
  | [] => []
  | c :: cs =>
    if isMotion c then
      let newPosition := commandTarget currentPosition c
      currentPosition :: newPosition :: rawToolPathPoints newPosition cs
    else rawToolPathPoints currentPosition cs

/-- Vertex sequence of `createToolPath`: the command-loop output, replaced
by a small default segment when it has fewer than 2 points. -/
def createToolPathPoints (commands : List GCodeCommand) : List Vec3 :=
  let points := rawToolPathPoints ⟨0, 0, 0⟩ commands
  if points.length < 2 then [⟨-10, 0, 0⟩, ⟨10, 0, 0⟩] else points

/-! ### The playback controller (`Scene` component) -/

/-- Playback state of the `Scene` component: the `progress` and `isPlaying`
React states together with `lastTimeRef.current` (the value `0` doubles as
the sentinel for "no previous tick"). -/
structure PlaybackState where
  progress : ℚ
  isPlaying : Bool
  lastTime : ℚ
deriving DecidableEq, Repr

/-- Constant `animationDuration = 5000`: time units for a full path traversal. -/
def animationDuration : ℚ := 5000

/-- One invocation of `animate(currentTime)`: while not playing only the
sentinel is restored; otherwise the first tick captures the timestamp
(zero delta), later ticks advance progress by `delta / animationDuration`
clamped at 1 via `Math.min`, and reaching 1 stops playback and clears the
sentinel. -/
def animate (s : PlaybackState) (currentTime : ℚ) : PlaybackState :=
  if s.isPlaying = false then { s with lastTime := 0 }
  else
    let lt := if s.lastTime = 0 then currentTime else s.lastTime
    let deltaTime := currentTime - lt
    let newProgress := min 1 (s.progress + deltaTime / animationDuration)
    if 1 ≤ newProgress then
      { progress := newProgress, isPlaying := false, lastTime := 0 }
    else
      { progress := newProgress, isPlaying := s.isPlaying, lastTime := currentTime }

/-- The successive `progress` values produced by a sequence of `animate`
calls at the given timestamps. -/
def animateTrace (s : PlaybackState) : List ℚ → List ℚ
  | [] => []
  | t :: ts => (animate s t).progress :: animateTrace (animate s t) ts

/-- Handler `handleProgressChange`: the slider handler sets `progress` to the new
value and stops playback only when that value reaches 1. -/
def handleProgressChange (v : ℚ) (s : PlaybackState) : PlaybackState :=
  let s1 := { s with progress := v }
  if 1 ≤ v then { s1 with isPlaying := false } else s1

/-- Function `clamp(value, lo, hi)` as the spec words it (declared for comparison
with the code's behaviour; the code itself never clamps in the slider
handler). -/
def clamp (value lo hi : ℚ) : ℚ := max lo (min hi value)

/-- Handler `togglePlay`: from a non-playing state it starts playback
(resetting progress first only when it has already reached 1); from
Playing it stops playback.  Neither branch touches `lastTimeRef`, and on
pause the accompanying effect cancels the pending animation frame, so the
not-playing branch of `animate` (which would clear the sentinel) does not
run: a stale last-tick timestamp survives a pause. -/
def togglePlay (s : PlaybackState) : PlaybackState :=
  if s.isPlaying = false then
    if 1 ≤ s.progress then
      { progress := 0, isPlaying := true, lastTime := s.lastTime }
    else
      { s with isPlaying := true }
  else
    { s with isPlaying := false }

/-! ### The partial-path renderer (`updatePathAnimation`) -/

/-- Computation `pointsToShow` of `updatePathAnimation`: 0 at or below progress 0, the
full count at or above 1, otherwise `max(2, ceil(total * progress))`. -/
def pointsToShow (progressValue : ℚ) (totalPoints : ℕ) : ℕ :=
  if progressValue ≤ 0 then 0
  else if 1 ≤ progressValue then totalPoints
  else max 2 ⌈(totalPoints : ℚ) * progressValue⌉.toNat

/-- Slice `visiblePoints = completePathPoints.slice(0, pointsToShow)`. -/
def visiblePoints (progressValue : ℚ) (pts : List Vec3) : List Vec3 :=
  pts.take (pointsToShow progressValue pts.length)

/-! ### The resource-slot loading logic (`useGCodeParser` / `useThreeSetup`)

Both hooks load their slot with the same effect shape: on a source change
the previous effect's cleanup disposes the `previousPath`/`previousModel`
it captured, the new effect captures the current ref, clears the slot and
starts an asynchronous load; when a load resolves it disposes the captured
previous resource and installs its own result unconditionally — there is
no staleness check.  The model below tracks one slot; resources are named
by the identifier of the load that produced them. -/

/-- One run of the loading effect: the load's identity together with the
`previousPath` captured from the ref at the start of the effect. -/
structure LoadRun where
  loadId : ℕ
  prevCaptured : Option ℕ
deriving DecidableEq, Repr

/-- Observable state of one resource slot. -/
structure SlotState where
  slot : Option ℕ
  refCell : Option ℕ
  activeRun : Option LoadRun
  pending : List LoadRun
  disposed : List ℕ
deriving DecidableEq, Repr

/-- Slot before any load has been triggered. -/
def emptySlot : SlotState :=
  { slot := none, refCell := none, activeRun := none, pending := [], disposed := [] }

/-- Dispose a possibly-absent resource (`cleanupToolPath` / `cleanupModel`). -/
def disposeRes (d : List ℕ) : Option ℕ → List ℕ
  | none => d
  | some r => d ++ [r]

/-- A source change: the previous effect's cleanup disposes the resource it
captured, then the new effect captures the ref, clears the slot
(`setToolPath(null)` / `setModel(null)`) and starts the load. -/
def slotTrigger (loadId : ℕ) (s : SlotState) : SlotState :=
  let d1 := match s.activeRun with
    | some r => disposeRes s.disposed r.prevCaptured
    | none => s.disposed
  let run : LoadRun := { loadId := loadId, prevCaptured := s.refCell }
  { slot := none, refCell := none, activeRun := some run,
    pending := s.pending ++ [run], disposed := d1 }

/-- A successful resolution of an in-flight load: dispose the previous
resource captured at effect start, then install the load's own resource
unconditionally (the success path of `loadPath` / `loadModel`). -/
def slotResolve (loadId : ℕ) (s : SlotState) : SlotState :=
  match s.pending.find? (fun r => r.loadId == loadId) with
  | none => s
  | some r =>
    { slot := some r.loadId, refCell := some r.loadId,
      activeRun := s.activeRun,
      pending := s.pending.filter (fun q => q.loadId != loadId),
      disposed := disposeRes s.disposed r.prevCaptured }

/-- Interleaving events on one slot. -/
inductive SlotEvent where
  | trigger (loadId : ℕ)
  | resolve (loadId : ℕ)
deriving DecidableEq, Repr

/-- One scheduling step. -/
def slotStep (s : SlotState) : SlotEvent → SlotState
  | .trigger loadId => slotTrigger loadId s
  | .resolve loadId => slotResolve loadId s

/-- Run a whole interleaving from the empty slot. -/
def runSlot (events : List SlotEvent) : SlotState :=
  events.foldl slotStep emptySlot

/-! ### Default assets and source selection -/

/-- Constant `DEFAULT_GCODE_PATH` of `useGCodeParser`. -/
def DEFAULT_GCODE_PATH : String := "/models/test.gcode"

/-- Constant `DEFAULT_STL_PATH` of `useThreeSetup`. -/
def DEFAULT_STL_PATH : String := "/models/dragon.stl"

/-- Contents of the repository's default asset `public/models/test.gcode`. -/
def defaultGCodeContent : String :=
  "; Square toolpath on a 200x200 grid\nG21 ; Set units to millimeters\nG90 ; Absolute positioning\nG0 Z10 ; Move up for safety\nG0 X-60 Y-60 ; Move to start position (larger square)\nG1 Z0 F300 ; Plunge to cutting depth (top surface of block)\nG1 X60 F600 ; Cut along X\nG1 Y60 ; Cut along Y\nG1 X-60 ; Cut back along X\nG1 Y-60 ; Cut back along Y\nG0 Z10 ; Move up for safety\nM2 ; End program"

/-- Source selection of `loadPath` in `useGCodeParser`: the uploaded file's
text when one is supplied, otherwise the text fetched from
`DEFAULT_GCODE_PATH` (`none` models a failed fetch). -/
def loadGCodeContent (gcodeFile : Option String) (fetch : String → Option String) :
    Option String :=
  match gcodeFile with
  | some f => some f
  | none => fetch DEFAULT_GCODE_PATH

/-- The vertex sequence produced by one run of `loadPath`:
`createToolPath(parseGCode(content))` on the selected source. -/
def loadToolPathPoints (gcodeFile : Option String) (fetch : String → Option String) :
    Option (List Vec3) :=
  (loadGCodeContent gcodeFile fetch).map fun content =>
    createToolPathPoints (parseGCode content)

/-- Opaque decoded surface returned by the external STL decoder; the core
never inspects it. -/
structure STLGeometry where
  geomId : ℕ
deriving DecidableEq, Repr

/-- A renderable mesh wrapping a decoded geometry (the `THREE.Mesh` built
by `useThreeSetup` from the geometry and a fixed material). -/
structure Mesh where
  geometry : STLGeometry
deriving DecidableEq, Repr

/-- The byte source handed to the STL decode capability: an uploaded
file's bytes, or the default asset path. -/
inductive STLSource where
  | uploaded (bytes : ℕ)
  | defaultPath (path : String)
deriving DecidableEq, Repr

/-- Source selection of `loadModel` in `useThreeSetup`: `loader.parse` on
the uploaded file's bytes when one is supplied, otherwise
`loader.loadAsync(DEFAULT_STL_PATH)`. -/
def selectSTLSource (stlFile : Option ℕ) : STLSource :=
  match stlFile with
  | some f => .uploaded f
  | none => .defaultPath DEFAULT_STL_PATH

/-- Modelled from the spec: the binary mesh decoder (`STLLoader`) and the
default binary asset `dragon.stl` are external to the core (spec §1, §6),
so decoding is an oracle from the selected source to an optional geometry.
`loadModel` is the success path of `useThreeSetup`: select the source and
wrap the decoded geometry in a mesh. -/
def loadModel (decode : STLSource → Option STLGeometry) (stlFile : Option ℕ) :
    Option Mesh :=
  (decode (selectSTLSource stlFile)).map fun g => { geometry := g }

/-! ### Comparison definitions for the token-override property -/

/-- The last `G` token of a tokenized line (its literal text), described
independently of the fold in `parseLine`. -/
def lastGToken (parts : List (List Char)) : Option (List Char) :=
  (parts.filter fun p => decide (codeLetter p = some 'G')).getLast?

/-- The value of the last token for code letter `c` whose remainder parses
as a number, described independently of the fold in `parseLine`. -/
def lastAxisValue (c : Char) (parts : List (List Char)) : Option ℚ :=
  (parts.filterMap fun p =>
    if codeLetter p = some c then parseFloatQ p.tail else none).getLast?

/-- The seven-line end-to-end scenario text of spec §8. -/
def scenarioText : String :=
  "G21\nG90\nG0 Z5\nG0 X0 Y0\nG1 Z-1 F100\nG1 X50 F200\nG1 Y50"

end SculptAnimate

namespace SculptAnimate

/-! ## Helper lemmas -/

/-- The path builder always returns at least two vertices (the fallback
segment guarantees this). -/
theorem two_le_createToolPathPoints_length (commands : List GCodeCommand) :
    2 ≤ (createToolPathPoints commands).length := by
  simp only [createToolPathPoints]
  split
  · simp
  · next h => exact Nat.le_of_not_lt h

/-- Every command kept by `processLine` has a non-empty `type` and at
least one coordinate. -/
theorem processLine_eq_some {line : List Char} {c : GCodeCommand}
    (h : processLine line = some c) :
    c.type ≠ "" ∧ (c.x.isSome ∨ c.y.isSome ∨ c.z.isSome) := by
  simp only [processLine] at h
  split at h
  · exact absurd h (by simp)
  · split at h
    · exact absurd h (by simp)
    · split at h
      · next hcond => obtain rfl : _ = c := Option.some.inj h; exact hcond
      · exact absurd h (by simp)

/-! ## C1: the end-to-end scenario of spec §8 -/

/-- Claim C1 (counterexample): on the seven-line scenario text the
interpreter keeps 5 motion commands, not 4, and the path builder yields
10 vertices, not 8 (the line `G0 X0 Y0` is a motion command with
coordinates and is kept). -/
theorem scenario_counterexample :
    ¬((parseGCode scenarioText).length = 4 ∧
      (createToolPathPoints (parseGCode scenarioText)).length = 8) ∧
    (parseGCode scenarioText).length = 5 ∧
    (createToolPathPoints (parseGCode scenarioText)).length = 10 := by decide

/-- Claim C1 (amended): the interpreter drops the two modal-only lines
`G21` and `G90` and keeps exactly 5 motion commands, and the path builder
yields exactly 10 vertices whose final vertex is `(50, 50, -1)`. -/
theorem scenario_amended :
    (parseGCode scenarioText).length = 5 ∧
    (∀ c ∈ parseGCode scenarioText, c.type ≠ "G21" ∧ c.type ≠ "G90") ∧
    (createToolPathPoints (parseGCode scenarioText)).length = 10 ∧
    (createToolPathPoints (parseGCode scenarioText)).getLast? =
      some ⟨50, 50, -1⟩ := by decide

/-! ## C3: modal carry-over -/

/-- Claim C3: for `[{mode: LINEAR_MOVE, x: 10}, {mode: LINEAR_MOVE, y: 5}]`
the path builder, starting at the origin, produces exactly
`[(0,0,0), (10,0,0), (10,0,0), (10,5,0)]`: axes absent from a command keep
their value from the previous command's target. -/
theorem modal_carry_over :
    createToolPathPoints
        [{ type := "G1", x := some 10 }, { type := "G1", y := some 5 }] =
      [⟨0, 0, 0⟩, ⟨10, 0, 0⟩, ⟨10, 0, 0⟩, ⟨10, 5, 0⟩] := by decide

/-! ## C4: which lines are appended to the command sequence -/

/-- Claim C4 (counterexample): the line `G4 X2`, whose only G token is the
non-motion code `G4`, IS appended to the interpreter's output sequence;
the motion filter happens only later, in the path builder. -/
theorem nonmotion_line_appended :
    parseGCode "G4 X2" = [{ type := "G4", x := some 2 }] ∧
    parseGCode "G4 X2" ≠ [] ∧
    isMotion { type := "G4", x := some 2 } = false := by decide

/-- Claim C4 (amended): a command is appended to the interpreter's output
only if some G token set a non-empty `type` and at least one X/Y/Z
coordinate was set by a numerically valid token; motion-relatedness of the
G code is not required at this stage. -/
theorem parseGCode_command_invariant (content : String) :
    ∀ c ∈ parseGCode content,
      c.type ≠ "" ∧ (c.x.isSome ∨ c.y.isSome ∨ c.z.isSome) := by
  intro c hc
  simp only [parseGCode, List.mem_filterMap] at hc
  obtain ⟨line, -, hline⟩ := hc
  exact processLine_eq_some hline

/-- Witness for `parseGCode_command_invariant` at the line `G4 X2`. -/
theorem parseGCode_command_invariant_witness :
    ({ type := "G4", x := some 2 } : GCodeCommand) ∈ parseGCode "G4 X2" ∧
    (({ type := "G4", x := some 2 } : GCodeCommand).type ≠ "" ∧
      (({ type := "G4", x := some 2 } : GCodeCommand).x.isSome ∨
        ({ type := "G4", x := some 2 } : GCodeCommand).y.isSome ∨
        ({ type := "G4", x := some 2 } : GCodeCommand).z.isSome)) :=
  ⟨by decide, parseGCode_command_invariant "G4 X2" _ (by decide)⟩

/-! ## C5: the slider handler (`seek`) -/

/-- Claim C5 (counterexample): scrubbing to `-1` while playing leaves the
controller playing (no transition to Paused) and stores `-1` itself rather
than `clamp(-1, 0, 1) = 0`. -/
theorem seek_counterexample :
    (handleProgressChange (-1)
        { progress := 0, isPlaying := true, lastTime := 0 }).progress ≠
      clamp (-1) 0 1 ∧
    (handleProgressChange (-1)
        { progress := 0, isPlaying := true, lastTime := 0 }).isPlaying ≠
      false := by decide

/-- Claim C5 (amended): `seek(value)` stores the raw value as progress
(without clamping), leaves the playing flag unchanged when the value is
below 1, and stops playback — yielding the Completed configuration at
value 1 — when the value is at least 1. -/
theorem seek_behaviour (v : ℚ) (s : PlaybackState) :
    (handleProgressChange v s).progress = v ∧
    (handleProgressChange v s).isPlaying =
      (if 1 ≤ v then false else s.isPlaying) ∧
    (handleProgressChange v s).lastTime = s.lastTime := by
  unfold handleProgressChange
  split <;> simp_all

/-! ## C8: the degenerate-path fallback -/

/-- Claim C8: whenever the motion commands yield fewer than 2 trajectory
points, the builder returns the 2-point default segment
`[(-10,0,0), (10,0,0)]`, which is non-empty and centered at the origin
(coordinatewise the two endpoints sum to zero). -/
theorem createToolPath_fallback (commands : List GCodeCommand)
    (h : (rawToolPathPoints ⟨0, 0, 0⟩ commands).length < 2) :
    createToolPathPoints commands = [⟨-10, 0, 0⟩, ⟨10, 0, 0⟩] ∧
    (createToolPathPoints commands).length = 2 ∧
    createToolPathPoints commands ≠ [] ∧
    (∀ a b, createToolPathPoints commands = [a, b] →
      a.x + b.x = 0 ∧ a.y + b.y = 0 ∧ a.z + b.z = 0) := by
  have he : createToolPathPoints commands = [⟨-10, 0, 0⟩, ⟨10, 0, 0⟩] := by
    unfold createToolPathPoints
    exact if_pos h
  refine ⟨he, by rw [he]; rfl, by rw [he]; simp, ?_⟩
  intro a b hab
  rw [he] at hab
  obtain ⟨h1, h2⟩ := List.cons.inj hab
  obtain ⟨h2, -⟩ := List.cons.inj h2
  subst h1
  subst h2
  exact ⟨by show (-10 : ℚ) + 10 = 0; norm_num,
    by show (0 : ℚ) + 0 = 0; norm_num,
    by show (0 : ℚ) + 0 = 0; norm_num⟩

/-- Witness for `createToolPath_fallback` at the empty command sequence. -/
theorem createToolPath_fallback_witness :
    (rawToolPathPoints ⟨0, 0, 0⟩ []).length < 2 ∧
    createToolPathPoints [] = [⟨-10, 0, 0⟩, ⟨10, 0, 0⟩] :=
  ⟨by decide, (createToolPath_fallback [] (by decide)).1⟩

end SculptAnimate

namespace SculptAnimate

/-! ## C2: overlapping loads on one resource slot -/

/-- Claim C2 (counterexample): triggering load 0 then load 1 before load 0
resolves, with load 1 resolving first, ends with the slot holding load 0's
resource — the stale first load is installed, load 1's resource is not
retained in the slot, and nothing has been disposed. -/
theorem slot_stale_result_installed :
    (runSlot [.trigger 0, .trigger 1, .resolve 1, .resolve 0]).slot = some 0 ∧
    (runSlot [.trigger 0, .trigger 1, .resolve 1, .resolve 0]).slot ≠ some 1 ∧
    (runSlot [.trigger 0, .trigger 1, .resolve 1, .resolve 0]).disposed = [] := by
  decide

/-- Claim C2 (amended): the resolve handler installs its result
unconditionally, so after any interleaving the slot holds the resource of
whichever in-flight load resolved last, regardless of trigger order; no
staleness guard exists. -/
theorem slot_last_resolution_wins (events : List SlotEvent) (loadId : ℕ)
    (h : (runSlot events).pending.any (fun r => r.loadId == loadId) = true) :
    (runSlot (events ++ [SlotEvent.resolve loadId])).slot = some loadId := by
  rw [runSlot, List.foldl_append]
  simp only [List.foldl_cons, List.foldl_nil]
  show (slotResolve loadId (runSlot events)).slot = some loadId
  unfold slotResolve
  cases hf : (runSlot events).pending.find? (fun r => r.loadId == loadId) with
  | none =>
    exfalso
    rw [List.find?_eq_none] at hf
    obtain ⟨r, hr, hpr⟩ := List.any_eq_true.mp h
    exact hf r hr hpr
  | some r =>
    have hid := List.find?_some hf
    simp only [beq_iff_eq] at hid
    simp [hid]

/-- Witness for `slot_last_resolution_wins`: after two triggers load 0 is
still pending, and resolving it last leaves it in the slot. -/
theorem slot_last_resolution_wins_witness :
    (runSlot [.trigger 0, .trigger 1]).pending.any (fun r => r.loadId == 0) = true ∧
    (runSlot ([.trigger 0, .trigger 1] ++ [SlotEvent.resolve 0])).slot = some 0 :=
  ⟨by decide, slot_last_resolution_wins [.trigger 0, .trigger 1] 0 (by decide)⟩

/-! ## C6: the partial-path renderer -/

/-- Bound: `pointsToShow` never exceeds the number of available points when at
least 2 are available. -/
theorem pointsToShow_le (p : ℚ) (n : ℕ) (h2 : 2 ≤ n) : pointsToShow p n ≤ n := by
  unfold pointsToShow
  split
  · exact Nat.zero_le n
  · split
    · exact le_refl n
    · next h0 h1 =>
      refine max_le h2 (Int.toNat_le.mpr (Int.ceil_le.mpr ?_))
      push_cast
      exact mul_le_of_le_one_right (by positivity) (le_of_not_le h1)

/-- Claim C6: on any full vertex list produced by the path builder and any
progress value, the renderer's visible points are exactly the first
`pointsToShow` vertices, with `pointsToShow` given by the 0 / total /
`max(2, ceil(total * progress))` case split. -/
theorem renderer_visible_points (commands : List GCodeCommand) (p : ℚ) :
    visiblePoints p (createToolPathPoints commands) =
      (createToolPathPoints commands).take
        (pointsToShow p (createToolPathPoints commands).length) ∧
    (visiblePoints p (createToolPathPoints commands)).length =
      pointsToShow p (createToolPathPoints commands).length ∧
    (p ≤ 0 → pointsToShow p (createToolPathPoints commands).length = 0) ∧
    (1 ≤ p → pointsToShow p (createToolPathPoints commands).length =
      (createToolPathPoints commands).length) ∧
    (0 < p → p < 1 → pointsToShow p (createToolPathPoints commands).length =
      max 2 ⌈((createToolPathPoints commands).length : ℚ) * p⌉.toNat) := by
  refine ⟨rfl, ?_, ?_, ?_, ?_⟩
  · rw [visiblePoints, List.length_take]
    exact Nat.min_eq_left
      (pointsToShow_le p _ (two_le_createToolPathPoints_length commands))
  · intro hp
    rw [pointsToShow, if_pos hp]
  · intro hp
    rw [pointsToShow]
    rw [if_neg (by linarith), if_pos hp]
  · intro hp0 hp1
    rw [pointsToShow]
    rw [if_neg (by linarith), if_neg (by linarith)]

/-- Witness for `renderer_visible_points` at a concrete command list and
progress value. -/
theorem renderer_visible_points_witness :
    visiblePoints 1 (createToolPathPoints [{ type := "G1", x := some 10 }]) =
      (createToolPathPoints [{ type := "G1", x := some 10 }]).take
        (pointsToShow 1
          (createToolPathPoints [{ type := "G1", x := some 10 }]).length) ∧
    (1 : ℚ) ≤ 1 ∧
    pointsToShow 1 (createToolPathPoints [{ type := "G1", x := some 10 }]).length =
      (createToolPathPoints [{ type := "G1", x := some 10 }]).length :=
  ⟨(renderer_visible_points [{ type := "G1", x := some 10 }] 1).1,
    by decide,
    (renderer_visible_points [{ type := "G1", x := some 10 }] 1).2.2.2.1 (by decide)⟩

/-! ## C9: default assets -/

/-- Claim C9: with no user file supplied, the G-code slot loads the content
fetched from the default path and yields a non-empty vertex sequence (at
least two vertices), and the model slot decodes `DEFAULT_STL_PATH` and
yields a mesh; an explicit upload likewise always yields a non-empty
vertex sequence. -/
theorem default_assets_loaded
    (fetch : String → Option String)
    (decode : STLSource → Option STLGeometry) (g : STLGeometry)
    (hfetch : fetch DEFAULT_GCODE_PATH = some defaultGCodeContent)
    (hdecode : decode (STLSource.defaultPath DEFAULT_STL_PATH) = some g) :
    loadToolPathPoints none fetch =
      some (createToolPathPoints (parseGCode defaultGCodeContent)) ∧
    (∀ pts, loadToolPathPoints none fetch = some pts →
      pts ≠ [] ∧ 2 ≤ pts.length) ∧
    loadModel decode none = some { geometry := g } ∧
    (∀ content, ∃ pts, loadToolPathPoints (some content) fetch = some pts ∧
      pts ≠ [] ∧ 2 ≤ pts.length) := by
  have hload : loadToolPathPoints none fetch =
      some (createToolPathPoints (parseGCode defaultGCodeContent)) := by
    rw [loadToolPathPoints, loadGCodeContent, hfetch, Option.map_some']
  refine ⟨hload, ?_, ?_, ?_⟩
  · intro pts hpts
    rw [hload] at hpts
    obtain rfl : _ = pts := Option.some.inj hpts
    have h2 := two_le_createToolPathPoints_length (parseGCode defaultGCodeContent)
    exact ⟨List.ne_nil_of_length_pos (by omega), h2⟩
  · rw [loadModel, selectSTLSource, hdecode, Option.map_some']
  · intro content
    refine ⟨createToolPathPoints (parseGCode content), rfl, ?_,
      two_le_createToolPathPoints_length (parseGCode content)⟩
    have h2 := two_le_createToolPathPoints_length (parseGCode content)
    exact List.ne_nil_of_length_pos (by omega)

/-- Witness for `default_assets_loaded` with the fetch oracle answering
with the repository's `test.gcode` content and the decode oracle producing
a geometry. -/
theorem default_assets_loaded_witness :
    ((fun _ : String => some defaultGCodeContent) DEFAULT_GCODE_PATH =
      some defaultGCodeContent ∧
     (fun _ : STLSource => some (⟨0⟩ : STLGeometry))
        (STLSource.defaultPath DEFAULT_STL_PATH) = some (⟨0⟩ : STLGeometry)) ∧
    loadToolPathPoints none (fun _ => some defaultGCodeContent) =
      some (createToolPathPoints (parseGCode defaultGCodeContent)) ∧
    loadModel (fun _ => some ⟨0⟩) none = some { geometry := (⟨0⟩ : STLGeometry) } :=
  ⟨⟨rfl, rfl⟩,
    (default_assets_loaded (fun _ => some defaultGCodeContent)
      (fun _ => some ⟨0⟩) ⟨0⟩ rfl rfl).1,
    (default_assets_loaded (fun _ => some defaultGCodeContent)
      (fun _ => some ⟨0⟩) ⟨0⟩ rfl rfl).2.2.1⟩

end SculptAnimate

namespace SculptAnimate

/-! ## C7: monotone progress under ticks -/

/-- After any `animate` call, progress stays at most 1. -/
theorem animate_progress_le_one (s : PlaybackState) (t : ℚ)
    (h : s.progress ≤ 1) : (animate s t).progress ≤ 1 := by
  simp only [animate]
  split
  · exact h
  · split <;> split <;> exact min_le_left _ _

/-- One `animate` call never decreases progress, provided the stored
last-tick timestamp is the sentinel or not in the future. -/
theorem animate_progress_mono (s : PlaybackState) (t : ℚ)
    (hp : s.progress ≤ 1) (hlt : s.lastTime = 0 ∨ s.lastTime ≤ t) :
    s.progress ≤ (animate s t).progress := by
  simp only [animate]
  split
  · exact le_refl _
  · set lt : ℚ := if s.lastTime = 0 then t else s.lastTime with hltdef
    have hdelta : 0 ≤ t - lt := by
      rw [hltdef]
      split
      · simp
      · next hne =>
        rcases hlt with h0 | hle
        · exact absurd h0 hne
        · linarith
    have hmin : s.progress ≤
        min 1 (s.progress + (t - lt) / animationDuration) := by
      refine le_min hp ?_
      have hnn : 0 ≤ (t - lt) / animationDuration :=
        div_nonneg hdelta (by norm_num [animationDuration])
      linarith
    split
    · exact hmin
    · exact hmin

/-- After any `animate` call the stored timestamp is the sentinel or the
call's own timestamp. -/
theorem animate_lastTime (s : PlaybackState) (t : ℚ) :
    (animate s t).lastTime = 0 ∨ (animate s t).lastTime = t := by
  simp only [animate]
  split
  · left; rfl
  · split <;> split <;> first | (left; rfl) | (right; rfl)

/-- Progress values along any strictly increasing tick sequence form a
non-decreasing chain bounded by 1. -/
theorem animateTrace_chain (times : List ℚ) :
    ∀ s : PlaybackState, s.progress ≤ 1 → times.Pairwise (· < ·) →
      (s.lastTime = 0 ∨ ∀ u ∈ times, s.lastTime ≤ u) →
      List.Chain' (· ≤ ·) (s.progress :: animateTrace s times) ∧
      ∀ q ∈ animateTrace s times, q ≤ 1 := by
  induction times with
  | nil =>
    intro s hp _ _
    simp [animateTrace]
  | cons t ts ih =>
    intro s hp hpw hlt
    rw [List.pairwise_cons] at hpw
    obtain ⟨hpw_t, hpw_ts⟩ := hpw
    have hlt1 : s.lastTime = 0 ∨ s.lastTime ≤ t := by
      rcases hlt with h0 | hall
      · exact .inl h0
      · exact .inr (hall t (by simp))
    have hmono := animate_progress_mono s t hp hlt1
    have hle1 := animate_progress_le_one s t hp
    have hnext : (animate s t).lastTime = 0 ∨ ∀ u ∈ ts, (animate s t).lastTime ≤ u := by
      rcases animate_lastTime s t with h0 | hE
      · exact .inl h0
      · refine .inr fun u hu => ?_
        rw [hE]
        exact (hpw_t u hu).le
    obtain ⟨ih_chain, ih_le⟩ := ih (animate s t) hle1 hpw_ts hnext
    constructor
    · rw [animateTrace]
      exact List.chain'_cons.mpr ⟨hmono, ih_chain⟩
    · intro q hq
      rw [animateTrace] at hq
      rcases List.mem_cons.mp hq with rfl | hq'
      · exact hle1
      · exact ih_le q hq'

/-- Claim C7 (counterexample): pausing never clears the last-tick
timestamp (the pending frame is cancelled, `togglePlay` leaves
`lastTimeRef` alone), so after play, ticks at 1000 and 2000 (progress
1/5), pause and play again, the controller re-enters Playing with the
stale timestamp 2000 — and its first tick, at 7000, applies the delta
(7000 - 2000)/5000 and jumps progress from 1/5 to 1 instead of applying
no delta. -/
theorem resume_first_tick_applies_delta :
    togglePlay (togglePlay
        (animate (animate { progress := 0, isPlaying := true, lastTime := 0 } 1000) 2000)) =
      { progress := 1/5, isPlaying := true, lastTime := 2000 } ∧
    ({ progress := 1/5, isPlaying := true, lastTime := 2000 } : PlaybackState).isPlaying
      = true ∧
    (animate { progress := 1/5, isPlaying := true, lastTime := 2000 } 7000).progress = 1 ∧
    (animate { progress := 1/5, isPlaying := true, lastTime := 2000 } 7000).progress ≠
      ({ progress := 1/5, isPlaying := true, lastTime := 2000 } : PlaybackState).progress := by
  have h1 : animate { progress := 0, isPlaying := true, lastTime := 0 } 1000 =
      { progress := 0, isPlaying := true, lastTime := 1000 } := by
    norm_num [animate, animationDuration, min_def]
  have h2 : animate { progress := 0, isPlaying := true, lastTime := 1000 } 2000 =
      { progress := 1/5, isPlaying := true, lastTime := 2000 } := by
    norm_num [animate, animationDuration, min_def]
  have h5 : animate { progress := 1/5, isPlaying := true, lastTime := 2000 } 7000 =
      { progress := 1, isPlaying := false, lastTime := 0 } := by
    norm_num [animate, animationDuration, min_def]
  refine ⟨?_, rfl, by rw [h5], by rw [h5]; norm_num⟩
  rw [h1, h2]
  norm_num [togglePlay]

/-- Claim C7 (amended): while Playing, any strictly increasing sequence of
tick timestamps (not preceding the stored last-tick timestamp, when one is
stored) yields a monotonically non-decreasing progress trace that never
exceeds 1.  When the sentinel is clear — entry via reset or completion —
the first tick applies no delta and only captures the timestamp; when a
stale timestamp survives — entry by resuming from pause — the first tick
behaves like any later tick and adds `(now - lastTickTimestamp) /
duration`, clamped at 1. -/
theorem tick_progress_monotone (s : PlaybackState) (times : List ℚ)
    (hplay : s.isPlaying = true)
    (hstart : s.lastTime = 0 ∨ ∀ u ∈ times, s.lastTime ≤ u)
    (hp : s.progress ≤ 1) (hinc : times.Pairwise (· < ·)) :
    List.Chain' (· ≤ ·) (s.progress :: animateTrace s times) ∧
    (∀ q ∈ animateTrace s times, q ≤ 1) ∧
    (∀ t ts', times = t :: ts' → s.lastTime = 0 →
      (animate s t).progress = s.progress) ∧
    (∀ t ts', times = t :: ts' → s.lastTime ≠ 0 →
      (animate s t).progress =
        min 1 (s.progress + (t - s.lastTime) / animationDuration)) := by
  obtain ⟨h1, h2⟩ := animateTrace_chain times s hp hinc hstart
  refine ⟨h1, h2, ?_, ?_⟩
  · intro t ts' _ hstart0
    have hne : ¬(s.isPlaying = false) := by simp [hplay]
    simp only [animate, hstart0, if_neg hne, if_true]
    rw [sub_self, zero_div, add_zero, min_eq_right hp]
    split <;> rfl
  · intro t ts' _ hstale
    have hne : ¬(s.isPlaying = false) := by simp [hplay]
    simp only [animate, if_neg hne, if_neg hstale]
    split <;> rfl

/-- Witness for `tick_progress_monotone` at ticks 7000 and 8000 from a
playback resumed with the stale last-tick timestamp 2000. -/
theorem tick_progress_monotone_witness :
    (({ progress := 0, isPlaying := true, lastTime := 2000 } : PlaybackState).isPlaying
        = true ∧
     (({ progress := 0, isPlaying := true, lastTime := 2000 } : PlaybackState).lastTime
        = 0 ∨
      ∀ u ∈ ([7000, 8000] : List ℚ),
        ({ progress := 0, isPlaying := true, lastTime := 2000 } : PlaybackState).lastTime
          ≤ u) ∧
     ({ progress := 0, isPlaying := true, lastTime := 2000 } : PlaybackState).progress
        ≤ 1 ∧
     ([7000, 8000] : List ℚ).Pairwise (· < ·)) ∧
    List.Chain' (· ≤ ·)
      (({ progress := 0, isPlaying := true, lastTime := 2000 } : PlaybackState).progress ::
        animateTrace { progress := 0, isPlaying := true, lastTime := 2000 } [7000, 8000]) :=
  ⟨⟨rfl, Or.inr (by decide), by decide, by decide⟩,
    (tick_progress_monotone { progress := 0, isPlaying := true, lastTime := 2000 }
      [7000, 8000] rfl (Or.inr (by decide)) (by decide) (by decide)).1⟩

end SculptAnimate

namespace SculptAnimate

/-! ## C10: later tokens on a line override earlier ones -/

/-- Last element of a filtered list after appending one element. -/
theorem getLast?_filter_concat {α : Type} (pred : α → Bool) (l : List α) (a : α) :
    ((l ++ [a]).filter pred).getLast? =
      if pred a then some a else (l.filter pred).getLast? := by
  rw [List.filter_append]
  by_cases h : pred a
  · rw [if_pos h]
    have hs : List.filter pred [a] = [a] := by simp [h]
    rw [hs, List.getLast?_concat]
  · rw [if_neg h]
    have hs : List.filter pred [a] = [] := by simp [h]
    rw [hs, List.append_nil]

/-- Last element of a filterMapped list after appending one element. -/
theorem getLast?_filterMap_concat {α β : Type} (f : α → Option β) (l : List α) (a : α) :
    ((l ++ [a]).filterMap f).getLast? =
      match f a with
      | some b => some b
      | none => (l.filterMap f).getLast? := by
  rw [List.filterMap_append]
  cases h : f a with
  | some b =>
    have hs : List.filterMap f [a] = [b] := by simp [h]
    rw [hs, List.getLast?_concat]
  | none =>
    have hs : List.filterMap f [a] = [] := by simp [h]
    rw [hs, List.append_nil]

/-- Claim C10: within one line, later tokens override earlier ones: the
parsed command's `type` is the literal text of the last `G` token on the
line, and each of x, y, z is the value of the last numerically valid token
for that axis letter. -/
theorem parseLine_last_token_wins (parts : List (List Char)) :
    (parseLine parts).type =
      ((lastGToken parts).map fun p => (⟨p⟩ : String)).getD "" ∧
    (parseLine parts).x = lastAxisValue 'X' parts ∧
    (parseLine parts).y = lastAxisValue 'Y' parts ∧
    (parseLine parts).z = lastAxisValue 'Z' parts := by
  induction parts using List.reverseRecOn with
  | nil => exact ⟨rfl, rfl, rfl, rfl⟩
  | append_singleton ps p ih =>
    obtain ⟨ihT, ihX, ihY, ihZ⟩ := ih
    have hfold : parseLine (ps ++ [p]) = applyToken (parseLine ps) p := by
      simp only [parseLine, List.foldl_append, List.foldl_cons, List.foldl_nil]
    have hGcat : lastGToken (ps ++ [p]) =
        if decide (codeLetter p = some 'G') then some p else lastGToken ps := by
      simp only [lastGToken, getLast?_filter_concat]
    rw [hfold]
    cases hc : codeLetter p with
    | none =>
      have happ : applyToken (parseLine ps) p = parseLine ps := by
        simp only [applyToken, hc]
      have hT : lastGToken (ps ++ [p]) = lastGToken ps := by
        rw [hGcat]; simp [hc]
      have hA : ∀ c, lastAxisValue c (ps ++ [p]) = lastAxisValue c ps := by
        intro c; simp [lastAxisValue, getLast?_filterMap_concat, hc]
      rw [happ, hT, hA 'X', hA 'Y', hA 'Z']
      exact ⟨ihT, ihX, ihY, ihZ⟩
    | some code =>
      have hAother : ∀ c, code ≠ c → lastAxisValue c (ps ++ [p]) = lastAxisValue c ps := by
        intro c hne
        simp only [lastAxisValue, getLast?_filterMap_concat, hc]
        rw [if_neg (fun h => hne (Option.some.inj h))]
      by_cases hg : code = 'G'
      · subst hg
        have happ : applyToken (parseLine ps) p =
            { parseLine ps with type := ⟨p⟩ } := by
          simp [applyToken, hc]
        have hT : lastGToken (ps ++ [p]) = some p := by
          rw [hGcat]; simp [hc]
        rw [happ, hT, hAother 'X' (by decide), hAother 'Y' (by decide),
          hAother 'Z' (by decide)]
        exact ⟨rfl, ihX, ihY, ihZ⟩
      · have hTsame : lastGToken (ps ++ [p]) = lastGToken ps := by
          rw [hGcat]
          have : ¬ (codeLetter p = some 'G') := by
            rw [hc]; exact fun h => hg (Option.some.inj h)
          simp [this]
        cases hv : parseFloatQ p.tail with
        | none =>
          have happ : applyToken (parseLine ps) p = parseLine ps := by
            simp only [applyToken, hc, hv]
            rw [if_neg hg]
          have hA : ∀ c, lastAxisValue c (ps ++ [p]) = lastAxisValue c ps := by
            intro c
            simp only [lastAxisValue, getLast?_filterMap_concat, hc]
            by_cases hcc : (some code : Option Char) = some c
            · rw [if_pos hcc, hv]
            · rw [if_neg hcc]
          rw [happ, hTsame, hA 'X', hA 'Y', hA 'Z']
          exact ⟨ihT, ihX, ihY, ihZ⟩
        | some v =>
          have hAhit : ∀ c, code = c → lastAxisValue c (ps ++ [p]) = some v := by
            intro c hcc
            simp only [lastAxisValue, getLast?_filterMap_concat, hc]
            rw [if_pos (show (some code : Option Char) = some c by rw [hcc]), hv]
          by_cases hx : code = 'X'
          · subst hx
            have happ : applyToken (parseLine ps) p =
                { parseLine ps with x := some v } := by
              simp [applyToken, hc, hv]
            rw [happ, hTsame, hAhit 'X' rfl, hAother 'Y' (by decide),
              hAother 'Z' (by decide)]
            exact ⟨ihT, rfl, ihY, ihZ⟩
          · by_cases hy : code = 'Y'
            · subst hy
              have happ : applyToken (parseLine ps) p =
                  { parseLine ps with y := some v } := by
                simp [applyToken, hc, hv]
              rw [happ, hTsame, hAother 'X' (by decide), hAhit 'Y' rfl,
                hAother 'Z' (by decide)]
              exact ⟨ihT, ihX, rfl, ihZ⟩
            · by_cases hz : code = 'Z'
              · subst hz
                have happ : applyToken (parseLine ps) p =
                    { parseLine ps with z := some v } := by
                  simp [applyToken, hc, hv]
                rw [happ, hTsame, hAother 'X' (by decide), hAother 'Y' (by decide),
                  hAhit 'Z' rfl]
                exact ⟨ihT, ihX, ihY, rfl⟩
              · have happ : applyToken (parseLine ps) p = parseLine ps := by
                  simp only [applyToken, hc, hv]
                  rw [if_neg hg, if_neg hx, if_neg hy, if_neg hz]
                rw [happ, hTsame, hAother 'X' hx, hAother 'Y' hy, hAother 'Z' hz]
                exact ⟨ihT, ihX, ihY, ihZ⟩

end SculptAnimate
